import Mathlib

/-!
Shallow embedding of `CubeLineMoment.py`: a moment-map extraction pipeline for
spectral-line cubes.  Position-position-velocity cubes are modelled as a list of
spectral channels, each carrying its spectral-axis value and its image plane
(a map from spatial pixels to brightness).  Physical quantities are real
numbers; units (km/s, GHz, brightness) are erased.  The per-pixel maps
(centroid, width, peak, noise) are functions from pixels to reals, and masks
are predicates.  File output is modelled as a list of write events (path plus
image data); the per-line loop of `cubelinemoment_multiline` becomes a
`List.flatMap` over the zipped line lists.
-/

open scoped Classical

noncomputable section

namespace CubeLineMoment

/-- Spatial pixel of an image plane, written as an (x, y) index pair. -/
abbrev Pixel : Type := ℕ × ℕ

/-- Speed of light in km/s, the constant used by the velocity conversions. -/
def ckms : ℝ := 299792.458

/-- A PPV cube: spectral channels, each a pair of the spectral-axis value
(frequency or, after conversion, velocity) and the image plane at that
channel; `dv` is the channel width used by the moment-0 integral and
`pixels` enumerates the spatial grid. -/
structure Cube where
  channels : List (ℝ × (Pixel → ℝ))
  dv : ℝ
  pixels : List Pixel

/-- Spectral-axis value of channel `i` of a cube (0 outside the cube). -/
def specAt (c : Cube) (i : ℕ) : ℝ :=
  (c.channels.getD i (0, fun _ => 0)).1

/-- Brightness of the voxel at channel `i`, pixel `p` (0 outside the cube). -/
def dataAt (c : Cube) (i : ℕ) (p : Pixel) : ℝ :=
  ((c.channels.getD i (0, fun _ => 0)).2) p

/-- Optical-convention velocity of frequency `f` for rest value `f0`:
`v = c * (f0 - f) / f`, the conversion applied by `with_spectral_unit`. -/
def opticalVelocity (f0 f : ℝ) : ℝ := ckms * (f0 - f) / f

/-- Model of `cube.with_spectral_unit(u.km/u.s, rest_value=f0,
velocity_convention='optical')`: every channel keeps its image plane and its
spectral value is converted from frequency to optical velocity. -/
def with_spectral_unit (c : Cube) (f0 : ℝ) : Cube :=
  { c with channels := c.channels.map (fun ch => (opticalVelocity f0 ch.1, ch.2)) }

/-- Model of `cube.spectral_slab(lo, hi)`: keep exactly the channels whose
spectral-axis value lies in the closed interval `[lo, hi]`. -/
def spectral_slab (c : Cube) (lo hi : ℝ) : Cube :=
  { c with channels := c.channels.filter (fun ch => decide (lo ≤ ch.1 ∧ ch.1 ≤ hi)) }

/-- Minimum of a list of reals (0 for the empty list, which numpy rejects). -/
def listMin (xs : List ℝ) : ℝ :=
  match xs with
  | [] => 0
  | x :: r => r.foldl min x

/-- Maximum of a list of reals (0 for the empty list, which numpy rejects). -/
def listMax (xs : List ℝ) : ℝ :=
  match xs with
  | [] => 0
  | x :: r => r.foldl max x

/-- Model of `map.min()`: minimum of a spatial map over the pixel grid. -/
def mapMin (c : Cube) (m : Pixel → ℝ) : ℝ := listMin (c.pixels.map m)

/-- Model of `map.max()`: maximum of a spatial map over the pixel grid. -/
def mapMax (c : Cube) (m : Pixel → ℝ) : ℝ := listMax (c.pixels.map m)

/-- Model of `cube.spectral_axis[cube.argmax(axis=0)]` at one pixel: the
spectral value of the first channel attaining the maximal brightness. -/
def argmaxVel (c : Cube) (p : Pixel) : ℝ :=
  match c.channels with
  | [] => 0
  | ch :: rest => (rest.foldl (fun best x => if best.2 p < x.2 p then x else best) ch).1

/-- Model of `cube.max(axis=0)` at one pixel: maximal brightness over the
spectral axis. -/
def peakMax (c : Cube) (p : Pixel) : ℝ :=
  match c.channels with
  | [] => 0
  | ch :: rest => rest.foldl (fun m x => max m (x.2 p)) (ch.2 p)

/-- Model of the numpy slice assignment `mask[low:high] = True` on a boolean
array viewed as a function on channel indices. -/
def setSliceF (m : ℕ → Bool) (low high : ℕ) : ℕ → Bool :=
  fun i => if low ≤ i ∧ i < high then true else m i

/-- Model of the baseline-mask loop of `cubelinemoment_setup`: start from the
all-false array and run `mask[low:high] = True` for every pair of the
baseline list. -/
def baselineMaskF (baseline : List (ℕ × ℕ)) : ℕ → Bool :=
  baseline.foldl (fun m lh => setSliceF m lh.1 lh.2) (fun _ => false)

/-- Arithmetic mean of a list of reals (0 for the empty list). -/
def listMean (xs : List ℝ) : ℝ := xs.sum / xs.length

/-- Population standard deviation of a list of reals, as `numpy.std`. -/
def std (xs : List ℝ) : ℝ :=
  Real.sqrt ((xs.map (fun x => (x - listMean xs) ^ 2)).sum / xs.length)

/-- Model of `cube.with_mask(mask[:,None,None]).std(axis=0)` at one pixel:
standard deviation over the channels kept by the baseline mask. -/
def noisemapOf (c : Cube) (baseline : List (ℕ × ℕ)) (p : Pixel) : ℝ :=
  std (((c.channels.enum).filter (fun ich => baselineMaskF baseline ich.1)).map
    (fun ich => ich.2.2 p))

/-- Spec-side description of a noise map, named after the spec wording: the
per-pixel standard deviation over exactly the channels `i` for which some
baseline pair `(low, high)` satisfies `low ≤ i < high`. -/
def noisemapSpecSelected (c : Cube) (baseline : List (ℕ × ℕ)) (p : Pixel) : ℝ :=
  std (((c.channels.enum).filter
    (fun ich => decide (∃ q ∈ baseline, q.1 ≤ ich.1 ∧ ich.1 < q.2))).map
    (fun ich => ich.2.2 p))

/-- Model of `spatialmask_Vcube`: the spatial-mask cube with its spectral axis
converted to velocity at the brightest-line rest frequency. -/
def spatialmask_Vcube (smc : Cube) (brightest_line_frequency : ℝ) : Cube :=
  with_spectral_unit smc brightest_line_frequency

/-- Model of `brightest_cube`: the slab of the velocity-converted spatial-mask
cube between `vz - linewidth_guess` and `vz + linewidth_guess`. -/
def brightest_cube (smc : Cube) (brightest_line_frequency vz linewidth_guess : ℝ) : Cube :=
  spectral_slab (spatialmask_Vcube smc brightest_line_frequency)
    (vz - linewidth_guess) (vz + linewidth_guess)

/-- Model of `peak_velocity` from setup: per-pixel spectral value at the argmax
of the brightest-line slab. -/
def peak_velocity_of (smc : Cube) (brightest_line_frequency vz linewidth_guess : ℝ)
    (p : Pixel) : ℝ :=
  argmaxVel (brightest_cube smc brightest_line_frequency vz linewidth_guess) p

/-- Model of `peak_amplitude` from setup: per-pixel maximum of the
brightest-line slab. -/
def peak_amplitude_of (smc : Cube) (brightest_line_frequency vz linewidth_guess : ℝ)
    (p : Pixel) : ℝ :=
  peakMax (brightest_cube smc brightest_line_frequency vz linewidth_guess) p

/-- Model of `spatial_mask` from setup: the peak amplitude of the
brightest-line slab exceeds `spatial_mask_limit` times `noisemapbright`
(which the source computes from the main cube over the bright baseline). -/
def spatial_mask_of (cube smc : Cube) (brightest_line_frequency vz linewidth_guess : ℝ)
    (noisemapbright_baseline : List (ℕ × ℕ)) (spatial_mask_limit : ℝ) (p : Pixel) : Prop :=
  peak_amplitude_of smc brightest_line_frequency vz linewidth_guess p >
    spatial_mask_limit * noisemapOf cube noisemapbright_baseline p

/-- Model of `vcube` in the per-line loop: the main cube with its spectral
axis converted to velocity at the rest frequency of the current line. -/
def line_vcube (cube : Cube) (line_freq : ℝ) : Cube :=
  with_spectral_unit cube line_freq

/-- Model of `subcube` in the per-line loop: the slab of the line's velocity
cube from `peak_velocity.min() - line_width` to
`peak_velocity.max() + line_width`. -/
def line_subcube (cube : Cube) (peak_velocity : Pixel → ℝ) (line_freq line_width : ℝ) : Cube :=
  spectral_slab (line_vcube cube line_freq)
    (mapMin cube peak_velocity - line_width)
    (mapMax cube peak_velocity + line_width)

/-- Model of `gauss_mask_cube`: the Gaussian built along each line of sight
from the centroid and width maps, sampled at the subcube spectral axis. -/
def gaussMaskCube (centroid_map width_map : Pixel → ℝ) (sub : Cube) (i : ℕ) (p : Pixel) : ℝ :=
  Real.exp (-(centroid_map p - specAt sub i) ^ 2 / (2 * (width_map p) ^ 2))

/-- Model of `peak_sn`: the per-pixel peak signal-to-noise ratio
`max_map / noisemap`. -/
def peak_sn (max_map noisemap : Pixel → ℝ) (p : Pixel) : ℝ := max_map p / noisemap p

/-- Model of `threshold`: the per-pixel Gaussian cutoff
`exp(-(peak_sn^2) / 2)`. -/
def thresholdOf (max_map noisemap : Pixel → ℝ) (p : Pixel) : ℝ :=
  Real.exp (-(peak_sn max_map noisemap p) ^ 2 / 2)

/-- Model of `width_mask_cube`: a voxel passes when the Gaussian mask value
strictly exceeds the per-pixel threshold. -/
def width_mask_cube (centroid_map width_map max_map noisemap : Pixel → ℝ)
    (sub : Cube) (i : ℕ) (p : Pixel) : Prop :=
  gaussMaskCube centroid_map width_map sub i p > thresholdOf max_map noisemap p

/-- Model of `mask` in the per-line loop: the velocity of the voxel differs
from the per-pixel peak velocity by strictly less than the line width. -/
def velocity_window_mask (peak_velocity : Pixel → ℝ) (sub : Cube) (line_width : ℝ)
    (i : ℕ) (p : Pixel) : Prop :=
  |peak_velocity p - specAt sub i| < line_width

/-- Model of `signal_mask`: the subcube brightness strictly exceeds
`signal_mask_limit` times the noise map. -/
def signal_maskOf (signal_mask_limit : ℝ) (noisemap : Pixel → ℝ) (sub : Cube)
    (i : ℕ) (p : Pixel) : Prop :=
  dataAt sub i p > signal_mask_limit * noisemap p

/-- Model of `SpectralCube.with_mask`: conjoin a new mask with the mask the
cube already carries. -/
def with_mask (base newMask : ℕ → Pixel → Prop) : ℕ → Pixel → Prop :=
  fun i p => base i p ∧ newMask i p

/-- Initial (all-inclusive) mask of a freshly sliced subcube. -/
def initMask : ℕ → Pixel → Prop := fun _ _ => True

/-- Model of the mask of `msubcube`, built exactly as in the source:
`subcube.with_mask(mask & spatial_mask).with_mask(signal_mask)
.with_mask(width_mask_cube)`. -/
def msubcubeMaskOf (peak_velocity centroid_map max_map noisemap : Pixel → ℝ)
    (signal_mask_limit : ℝ) (spatial_mask : Pixel → Prop) (width_map : Pixel → ℝ)
    (sub : Cube) (line_width : ℝ) : ℕ → Pixel → Prop :=
  with_mask
    (with_mask
      (with_mask initMask
        (fun i p => velocity_window_mask peak_velocity sub line_width i p ∧ spatial_mask p))
      (fun i p => signal_maskOf signal_mask_limit noisemap sub i p))
    (fun i p => width_mask_cube centroid_map width_map max_map noisemap sub i p)

/-- Sum over the spectral axis at one pixel of a function of (velocity,
brightness), counting only voxels kept by the mask; masked voxels
contribute nothing, as in a masked-cube reduction. -/
def maskedSum (c : Cube) (msk : ℕ → Pixel → Prop) (p : Pixel) (f : ℝ → ℝ → ℝ) : ℝ :=
  ((c.channels.enum).map
    (fun ich => if msk ich.1 p then f ich.2.1 (ich.2.2 p) else 0)).sum

/-- Intensity-weighted mean velocity (moment 1) of a masked cube at one
pixel: `sum(I * v) / sum(I)`. -/
def moment1M (c : Cube) (msk : ℕ → Pixel → Prop) (p : Pixel) : ℝ :=
  maskedSum c msk p (fun v I => I * v) / maskedSum c msk p (fun _ I => I)

/-- Model of `msubcube.moment(order=moment, axis=0)` at one pixel: order 0 is
the integral `sum(I) * dv`, order 1 the intensity-weighted mean velocity, and
higher orders the intensity-weighted central moments about the moment-1
value. -/
def momentOf (c : Cube) (msk : ℕ → Pixel → Prop) (order : ℕ) (p : Pixel) : ℝ :=
  match order with
  | 0 => c.dv * maskedSum c msk p (fun _ I => I)
  | 1 => moment1M c msk p
  | n => maskedSum c msk p (fun v I => I * (v - moment1M c msk p) ^ n) /
      maskedSum c msk p (fun _ I => I)

/-- Value actually written for a given moment order: the source replaces the
moment-2 map by `2 * sqrt(log(2)) * sqrt(mom)` before writing. -/
def writtenMoment (c : Cube) (msk : ℕ → Pixel → Prop) (order : ℕ) (p : Pixel) : ℝ :=
  if order = 2 then 2 * Real.sqrt (Real.log 2) * Real.sqrt (momentOf c msk 2 p)
  else momentOf c msk order p

/-- One output-file write: the target path and the image data written. -/
structure WriteEvent where
  path : String
  data : Pixel → ℝ

/-- Path of the FITS file written for one line and one moment order:
`momentX/{target}_{line}_momentX.fits`. -/
def fitsPath (order : ℕ) (target line_name : String) : String :=
  "moment" ++ toString order ++ "/" ++ target ++ "_" ++ line_name ++
    "_moment" ++ toString order ++ ".fits"

/-- Path of the PNG preview written for one line and one moment order:
`momentX/{target}_{line}_momentX.png`. -/
def pngPath (order : ℕ) (target line_name : String) : String :=
  "moment" ++ toString order ++ "/" ++ target ++ "_" ++ line_name ++
    "_moment" ++ toString order ++ ".png"

/-- Model of the body of the per-line loop: slice the subcube, build the
combined mask, and for each moment order 0, 1, 2 write the FITS image and
then the PNG preview of the (possibly transformed) moment map. -/
def lineWrites (cube : Cube) (peak_velocity centroid_map max_map noisemap : Pixel → ℝ)
    (signal_mask_limit : ℝ) (target : String) (spatial_mask : Pixel → Prop)
    (width_map : Pixel → ℝ) (line_name : String) (line_freq line_width : ℝ) :
    List WriteEvent :=
  let sub := line_subcube cube peak_velocity line_freq line_width
  let msk := msubcubeMaskOf peak_velocity centroid_map max_map noisemap
    signal_mask_limit spatial_mask width_map sub line_width
  [0, 1, 2].flatMap (fun order =>
    [{ path := fitsPath order target line_name, data := fun p => writtenMoment sub msk order p },
     { path := pngPath order target line_name, data := fun p => writtenMoment sub msk order p }])

/-- Error message of the single explicit parameter check of
`cubelinemoment_multiline`. -/
def lengthErrMsg : String :=
  "Line lists (central frequency, names, and widths) have different lengths"

/-- Model of `cubelinemoment_multiline`: after the length check on the three
line lists, loop over the zipped lists and emit the per-line writes; the
result is the full ordered list of file writes, or the length error. -/
def cubelinemoment_multiline (cube : Cube)
    (peak_velocity centroid_map max_map noisemap : Pixel → ℝ)
    (signal_mask_limit spatial_mask_limit : ℝ)
    (my_line_list my_line_widths : List ℝ) (my_line_names : List String)
    (target : String) (spatial_mask : Pixel → Prop) (width_map : Pixel → ℝ) :
    Except String (List WriteEvent) :=
  if my_line_names.length ≠ my_line_list.length ∨
      my_line_names.length ≠ my_line_widths.length then
    Except.error lengthErrMsg
  else
    Except.ok ((my_line_names.zip (my_line_list.zip my_line_widths)).flatMap
      (fun t => lineWrites cube peak_velocity centroid_map max_map noisemap
        signal_mask_limit target spatial_mask width_map t.1 t.2.1 t.2.2))

/-- Paths of the files written by a run: none when the run aborted with an
error. -/
def writtenPaths (r : Except String (List WriteEvent)) : List String :=
  match r with
  | Except.error _ => []
  | Except.ok l => l.map WriteEvent.path

/-- Spec-side description of the per-line writes, named after the spec
wording: for each line, in list order, the three moment maps of orders 0, 1
and 2 of the same masked subcube, the moment-2 map transformed to a width
before writing, each written as a FITS image and then a PNG preview. -/
def momentWritesSpec (cube : Cube)
    (peak_velocity centroid_map max_map noisemap : Pixel → ℝ)
    (signal_mask_limit : ℝ)
    (my_line_list my_line_widths : List ℝ) (my_line_names : List String)
    (target : String) (spatial_mask : Pixel → Prop) (width_map : Pixel → ℝ) :
    List WriteEvent :=
  (my_line_names.zip (my_line_list.zip my_line_widths)).flatMap (fun t =>
    let sub := line_subcube cube peak_velocity t.2.1 t.2.2
    let msk := msubcubeMaskOf peak_velocity centroid_map max_map noisemap
      signal_mask_limit spatial_mask width_map sub t.2.2
    [{ path := fitsPath 0 target t.1, data := fun p => momentOf sub msk 0 p },
     { path := pngPath 0 target t.1, data := fun p => momentOf sub msk 0 p },
     { path := fitsPath 1 target t.1, data := fun p => momentOf sub msk 1 p },
     { path := pngPath 1 target t.1, data := fun p => momentOf sub msk 1 p },
     { path := fitsPath 2 target t.1,
       data := fun p => 2 * Real.sqrt (Real.log 2) * Real.sqrt (momentOf sub msk 2 p) },
     { path := pngPath 2 target t.1,
       data := fun p => 2 * Real.sqrt (Real.log 2) * Real.sqrt (momentOf sub msk 2 p) }])

/-- Spec-side description of the output paths, named after the spec wording:
for every line name, the six fixed per-moment paths, FITS then PNG for each
moment order 0, 1, 2. -/
def outputPathsSpec (target : String) (my_line_names : List String) : List String :=
  my_line_names.flatMap (fun L =>
    [fitsPath 0 target L, pngPath 0 target L,
     fitsPath 1 target L, pngPath 1 target L,
     fitsPath 2 target L, pngPath 2 target L])

/-! ### Helper lemmas -/

/-- Running the slice-assignment loop on any starting array sets index `i`
exactly when it was already set or some baseline pair covers `i`. -/
lemma foldl_setSliceF_apply (b : List (ℕ × ℕ)) (m : ℕ → Bool) (i : ℕ) :
    (b.foldl (fun acc lh => setSliceF acc lh.1 lh.2) m) i =
      (m i || decide (∃ q ∈ b, q.1 ≤ i ∧ i < q.2)) := by
  induction b generalizing m with
  | nil => simp
  | cons q b ih =>
    simp only [List.foldl_cons]
    rw [ih]
    by_cases h : q.1 ≤ i ∧ i < q.2
    · simp [setSliceF, h]
    · simp [setSliceF, h]

/-- The baseline mask holds at `i` exactly when some baseline pair
`(low, high)` satisfies `low ≤ i < high`. -/
lemma baselineMaskF_eq_decide (b : List (ℕ × ℕ)) (i : ℕ) :
    baselineMaskF b i = decide (∃ q ∈ b, q.1 ≤ i ∧ i < q.2) := by
  simpa [baselineMaskF] using foldl_setSliceF_apply b (fun _ => false) i

/-! ### Claim theorems -/

/-- Claim C1: in `cubelinemoment_multiline`, a voxel of the sliced subcube is
kept by the combined mask (and hence contributes to the moment computation)
if and only if it passes the conjunction of all four masks: the velocity
window around the per-pixel peak velocity, the spatial mask from setup (peak
amplitude of the brightest-line slab above `spatial_mask_limit` times the
bright noise map), the signal mask, and the Gaussian-threshold width mask. -/
theorem msubcube_mask_iff_four_masks
    (cube smc : Cube) (brightf vz lwg : ℝ) (nbb : List (ℕ × ℕ)) (sml : ℝ)
    (peak_velocity centroid_map max_map noisemap width_map : Pixel → ℝ)
    (siglim line_freq line_width : ℝ) (i : ℕ) (p : Pixel) :
    msubcubeMaskOf peak_velocity centroid_map max_map noisemap siglim
        (spatial_mask_of cube smc brightf vz lwg nbb sml) width_map
        (line_subcube cube peak_velocity line_freq line_width) line_width i p ↔
      (|peak_velocity p - specAt (line_subcube cube peak_velocity line_freq line_width) i| <
          line_width ∧
        peak_amplitude_of smc brightf vz lwg p > sml * noisemapOf cube nbb p ∧
        dataAt (line_subcube cube peak_velocity line_freq line_width) i p >
          siglim * noisemap p ∧
        gaussMaskCube centroid_map width_map
            (line_subcube cube peak_velocity line_freq line_width) i p >
          thresholdOf max_map noisemap p) := by
  unfold msubcubeMaskOf with_mask initMask velocity_window_mask signal_maskOf
    width_mask_cube spatial_mask_of
  tauto

/-- Claim C2: the Gaussian mask cube has value
`exp(-(centroid - v)^2 / (2 * width^2))` at each channel and pixel, and a
voxel passes the width mask exactly when this value strictly exceeds the
per-pixel threshold `exp(-(max_map/noisemap)^2 / 2)`. -/
theorem gauss_mask_and_width_threshold
    (centroid_map width_map max_map noisemap : Pixel → ℝ) (sub : Cube) (i : ℕ)
    (p : Pixel) :
    gaussMaskCube centroid_map width_map sub i p =
        Real.exp (-(centroid_map p - specAt sub i) ^ 2 / (2 * (width_map p) ^ 2)) ∧
      (width_mask_cube centroid_map width_map max_map noisemap sub i p ↔
        gaussMaskCube centroid_map width_map sub i p >
          Real.exp (-(max_map p / noisemap p) ^ 2 / 2)) :=
  ⟨rfl, Iff.rfl⟩

/-- Claim C4: `cubelinemoment_multiline` returns the distinguishable length
error if and only if the three line lists do not all have the same length;
when the lengths agree the parameter check raises nothing. -/
theorem length_check_error_iff (cube : Cube)
    (peak_velocity centroid_map max_map noisemap : Pixel → ℝ)
    (signal_mask_limit spatial_mask_limit : ℝ)
    (my_line_list my_line_widths : List ℝ) (my_line_names : List String)
    (target : String) (spatial_mask : Pixel → Prop) (width_map : Pixel → ℝ) :
    (cubelinemoment_multiline cube peak_velocity centroid_map max_map noisemap
        signal_mask_limit spatial_mask_limit my_line_list my_line_widths
        my_line_names target spatial_mask width_map = Except.error lengthErrMsg) ↔
      ¬(my_line_names.length = my_line_list.length ∧
        my_line_names.length = my_line_widths.length) := by
  unfold cubelinemoment_multiline
  by_cases h : my_line_names.length ≠ my_line_list.length ∨
      my_line_names.length ≠ my_line_widths.length
  · rw [if_pos h]
    simp only [true_iff]
    tauto
  · rw [if_neg h]
    push_neg at h
    constructor
    · intro hc
      exact absurd hc (by simp)
    · intro hn
      exact absurd h hn

/-- Claim C5: for a line of rest frequency `f` and width `w`, a channel
belongs to the sliced subcube exactly when it is a channel of the
velocity-converted cube whose velocity lies between
`min(peak_velocity) - w` and `max(peak_velocity) + w`, with `peak_velocity`
the per-pixel argmax velocity map of the brightest-line slab from setup. -/
theorem subcube_velocity_window_mem
    (cube smc : Cube) (brightf vz lwg line_freq line_width : ℝ)
    (ch : ℝ × (Pixel → ℝ)) :
    ch ∈ (line_subcube cube (peak_velocity_of smc brightf vz lwg)
        line_freq line_width).channels ↔
      (ch ∈ (line_vcube cube line_freq).channels ∧
        (mapMin cube (peak_velocity_of smc brightf vz lwg) - line_width ≤ ch.1 ∧
          ch.1 ≤ mapMax cube (peak_velocity_of smc brightf vz lwg) + line_width)) := by
  simp [line_subcube, spectral_slab, List.mem_filter, decide_eq_true_iff]

/-- Claim C6: each noise map is the per-pixel standard deviation over exactly
the spectral channels selected by its baseline list, and a channel index `i`
is selected if and only if some pair `(low, high)` of the baseline list
satisfies `low ≤ i < high`. -/
theorem noisemap_channels_exactly_baseline (c : Cube) (baseline : List (ℕ × ℕ))
    (p : Pixel) :
    noisemapOf c baseline p = noisemapSpecSelected c baseline p ∧
      (∀ i, baselineMaskF baseline i = true ↔ ∃ q ∈ baseline, q.1 ≤ i ∧ i < q.2) := by
  constructor
  · unfold noisemapOf noisemapSpecSelected
    have h : ∀ ich ∈ c.channels.enum, baselineMaskF baseline ich.1 =
        decide (∃ q ∈ baseline, q.1 ≤ ich.1 ∧ ich.1 < q.2) :=
      fun ich _ => baselineMaskF_eq_decide baseline ich.1
    rw [List.filter_congr h]
  · intro i
    rw [baselineMaskF_eq_decide]
    exact decide_eq_true_iff

/-- Claim C9: when the line-list length check fails, the run aborts with the
length error before the per-line loop, so no FITS or PNG file is written. -/
theorem length_mismatch_aborts_before_writes (cube : Cube)
    (peak_velocity centroid_map max_map noisemap : Pixel → ℝ)
    (signal_mask_limit spatial_mask_limit : ℝ)
    (my_line_list my_line_widths : List ℝ) (my_line_names : List String)
    (target : String) (spatial_mask : Pixel → Prop) (width_map : Pixel → ℝ)
    (h : ¬(my_line_names.length = my_line_list.length ∧
      my_line_names.length = my_line_widths.length)) :
    cubelinemoment_multiline cube peak_velocity centroid_map max_map noisemap
        signal_mask_limit spatial_mask_limit my_line_list my_line_widths
        my_line_names target spatial_mask width_map = Except.error lengthErrMsg ∧
      writtenPaths (cubelinemoment_multiline cube peak_velocity centroid_map
        max_map noisemap signal_mask_limit spatial_mask_limit my_line_list
        my_line_widths my_line_names target spatial_mask width_map) = [] := by
  have hc : my_line_names.length ≠ my_line_list.length ∨
      my_line_names.length ≠ my_line_widths.length := by tauto
  unfold cubelinemoment_multiline writtenPaths
  rw [if_pos hc]
  exact ⟨rfl, rfl⟩

/-- Witness for claim C9: a concrete mismatched input (one name, no
frequencies, no widths) aborts with the length error and writes nothing. -/
theorem length_mismatch_aborts_before_writes_witness :
    ¬((["a"] : List String).length = ([] : List ℝ).length ∧
        (["a"] : List String).length = ([] : List ℝ).length) ∧
      (cubelinemoment_multiline { channels := [], dv := 1, pixels := [] }
          (fun _ => 0) (fun _ => 0) (fun _ => 0) (fun _ => 0) 0 0 [] [] ["a"] "t"
          (fun _ => True) (fun _ => 0) = Except.error lengthErrMsg ∧
        writtenPaths (cubelinemoment_multiline { channels := [], dv := 1, pixels := [] }
          (fun _ => 0) (fun _ => 0) (fun _ => 0) (fun _ => 0) 0 0 [] [] ["a"] "t"
          (fun _ => True) (fun _ => 0)) = []) :=
  ⟨by decide,
    length_mismatch_aborts_before_writes { channels := [], dv := 1, pixels := [] }
      (fun _ => 0) (fun _ => 0) (fun _ => 0) (fun _ => 0) 0 0 [] [] ["a"] "t"
      (fun _ => True) (fun _ => 0) (by decide)⟩

/-- Looping over a zipped list with a body that only uses the first
component is looping over the first list, provided the second list is long
enough. -/
lemma zip_flatMap_fst {α β γ : Type} :
    ∀ (l1 : List α) (l2 : List β) (g : α → List γ), l1.length ≤ l2.length →
      (l1.zip l2).flatMap (fun t => g t.1) = l1.flatMap g
  | [], _, _, _ => by simp
  | a :: l1, b :: l2, g, h => by
    simp only [List.zip_cons_cons, List.flatMap_cons]
    rw [zip_flatMap_fst l1 l2 g (Nat.le_of_succ_le_succ h)]
  | a :: l1, [], g, h => by simp at h

/-- Claim C7: when the length check passes, `cubelinemoment_multiline`
produces, for every entry of the line lists in order, exactly the three
moment maps of orders 0, 1 and 2 of the same masked subcube, writing a FITS
image and a PNG preview for each before moving to the next line. -/
theorem multiline_three_moments_per_line (cube : Cube)
    (peak_velocity centroid_map max_map noisemap : Pixel → ℝ)
    (signal_mask_limit spatial_mask_limit : ℝ)
    (my_line_list my_line_widths : List ℝ) (my_line_names : List String)
    (target : String) (spatial_mask : Pixel → Prop) (width_map : Pixel → ℝ)
    (h : my_line_names.length = my_line_list.length ∧
      my_line_names.length = my_line_widths.length) :
    cubelinemoment_multiline cube peak_velocity centroid_map max_map noisemap
        signal_mask_limit spatial_mask_limit my_line_list my_line_widths
        my_line_names target spatial_mask width_map =
      Except.ok (momentWritesSpec cube peak_velocity centroid_map max_map
        noisemap signal_mask_limit my_line_list my_line_widths my_line_names
        target spatial_mask width_map) := by
  have hc : ¬(my_line_names.length ≠ my_line_list.length ∨
      my_line_names.length ≠ my_line_widths.length) := by tauto
  unfold cubelinemoment_multiline
  rw [if_neg hc]
  rfl

/-- Witness for claim C7: a concrete single-line input passes the length
check and yields exactly the spec-described write list. -/
theorem multiline_three_moments_per_line_witness :
    ((["a"] : List String).length = ([(1 : ℝ)] : List ℝ).length ∧
        (["a"] : List String).length = ([(2 : ℝ)] : List ℝ).length) ∧
      cubelinemoment_multiline { channels := [], dv := 1, pixels := [] }
          (fun _ => 0) (fun _ => 0) (fun _ => 0) (fun _ => 0) 0 0 [1] [2] ["a"]
          "t" (fun _ => True) (fun _ => 0) =
        Except.ok (momentWritesSpec { channels := [], dv := 1, pixels := [] }
          (fun _ => 0) (fun _ => 0) (fun _ => 0) (fun _ => 0) 0 [1] [2] ["a"]
          "t" (fun _ => True) (fun _ => 0)) :=
  ⟨⟨rfl, rfl⟩,
    multiline_three_moments_per_line { channels := [], dv := 1, pixels := [] }
      (fun _ => 0) (fun _ => 0) (fun _ => 0) (fun _ => 0) 0 0 [1] [2] ["a"] "t"
      (fun _ => True) (fun _ => 0) ⟨rfl, rfl⟩⟩

/-- Unfolding lemma: the paths of a successful run are the paths of its write
events. -/
lemma writtenPaths_ok (l : List WriteEvent) :
    writtenPaths (Except.ok l) = l.map WriteEvent.path := rfl

/-- Claim C8: when the length check passes, the files written are exactly, for
every line name `L` in order, `momentX/{target}_{L}_momentX.fits` and
`momentX/{target}_{L}_momentX.png` for `X` in 0, 1, 2 — and nothing else. -/
theorem multiline_output_paths (cube : Cube)
    (peak_velocity centroid_map max_map noisemap : Pixel → ℝ)
    (signal_mask_limit spatial_mask_limit : ℝ)
    (my_line_list my_line_widths : List ℝ) (my_line_names : List String)
    (target : String) (spatial_mask : Pixel → Prop) (width_map : Pixel → ℝ)
    (h : my_line_names.length = my_line_list.length ∧
      my_line_names.length = my_line_widths.length) :
    writtenPaths (cubelinemoment_multiline cube peak_velocity centroid_map
        max_map noisemap signal_mask_limit spatial_mask_limit my_line_list
        my_line_widths my_line_names target spatial_mask width_map) =
      outputPathsSpec target my_line_names := by
  have hc : ¬(my_line_names.length ≠ my_line_list.length ∨
      my_line_names.length ≠ my_line_widths.length) := by tauto
  unfold cubelinemoment_multiline
  rw [if_neg hc, writtenPaths_ok]
  unfold outputPathsSpec
  rw [List.map_flatMap]
  have hfun : (fun t : String × (ℝ × ℝ) =>
      (lineWrites cube peak_velocity centroid_map max_map noisemap
        signal_mask_limit target spatial_mask width_map t.1 t.2.1 t.2.2).map
        WriteEvent.path) =
      (fun t : String × (ℝ × ℝ) =>
        [fitsPath 0 target t.1, pngPath 0 target t.1,
         fitsPath 1 target t.1, pngPath 1 target t.1,
         fitsPath 2 target t.1, pngPath 2 target t.1]) :=
    funext (fun t => rfl)
  rw [hfun]
  have hlen : my_line_names.length ≤ (my_line_list.zip my_line_widths).length := by
    rw [List.length_zip, ← h.1, ← h.2]
    simp
  exact zip_flatMap_fst my_line_names (my_line_list.zip my_line_widths)
    (fun L => [fitsPath 0 target L, pngPath 0 target L, fitsPath 1 target L,
      pngPath 1 target L, fitsPath 2 target L, pngPath 2 target L]) hlen

/-- Witness for claim C8: on a concrete single-line input the written paths
are exactly the spec-described fixed per-moment paths. -/
theorem multiline_output_paths_witness :
    ((["a"] : List String).length = ([(1 : ℝ)] : List ℝ).length ∧
        (["a"] : List String).length = ([(2 : ℝ)] : List ℝ).length) ∧
      writtenPaths (cubelinemoment_multiline { channels := [], dv := 1, pixels := [] }
          (fun _ => 0) (fun _ => 0) (fun _ => 0) (fun _ => 0) 0 0 [1] [2] ["a"]
          "t" (fun _ => True) (fun _ => 0)) = outputPathsSpec "t" ["a"] :=
  ⟨⟨rfl, rfl⟩,
    multiline_output_paths { channels := [], dv := 1, pixels := [] }
      (fun _ => 0) (fun _ => 0) (fun _ => 0) (fun _ => 0) 0 0 [1] [2] ["a"] "t"
      (fun _ => True) (fun _ => 0) ⟨rfl, rfl⟩⟩

/-- Claim C10: at a pixel with strictly positive width and strictly positive
peak signal-to-noise ratio, the exp-and-compare width mask admits a voxel
exactly when its velocity offset from the centroid is strictly less than the
signal-to-noise ratio times the per-pixel width. -/
theorem width_mask_iff_sn_sigma_window
    (centroid_map width_map max_map noisemap : Pixel → ℝ) (sub : Cube) (i : ℕ)
    (p : Pixel) (hw : 0 < width_map p) (hs : 0 < peak_sn max_map noisemap p) :
    width_mask_cube centroid_map width_map max_map noisemap sub i p ↔
      |specAt sub i - centroid_map p| <
        peak_sn max_map noisemap p * width_map p := by
  unfold width_mask_cube gaussMaskCube thresholdOf
  rw [gt_iff_lt, Real.exp_lt_exp, neg_div, neg_div, neg_lt_neg_iff,
    div_lt_div_iff₀ (mul_pos two_pos (pow_pos hw 2)) two_pos]
  have hsw : 0 < peak_sn max_map noisemap p * width_map p := mul_pos hs hw
  constructor
  · intro h1
    have h2 : (specAt sub i - centroid_map p) ^ 2 <
        (peak_sn max_map noisemap p * width_map p) ^ 2 := by nlinarith
    have h3 := sq_lt_sq.mp h2
    rwa [abs_of_pos hsw] at h3
  · intro h1
    have h3 : |specAt sub i - centroid_map p| <
        |peak_sn max_map noisemap p * width_map p| := by
      rwa [abs_of_pos hsw]
    have h2 := sq_lt_sq.mpr h3
    nlinarith

/-! ### Concrete instance used by the counterexample and witnesses -/

/-- A concrete two-channel, one-pixel cube with unit brightness everywhere;
its channels sit at frequencies 2 and 1, which a line at rest frequency 2
converts to velocities 0 and `ckms`. -/
def cxCube : Cube :=
  { channels := [(2, fun _ => 1), (1, fun _ => 1)], dv := 1, pixels := [(0, 0)] }

/-- Concrete peak-velocity map used with `cxCube`. -/
def cxPV : Pixel → ℝ := fun _ => ckms / 2

/-- The subcube `cxCube` yields for a line of rest frequency 2 and width
`ckms`. -/
def cxSub : Cube := line_subcube cxCube cxPV 2 ckms

/-- The combined mask the per-line loop builds on `cxSub` with centroid
`ckms/2`, peak map 10, noise map 1, signal limit 0, trivial spatial mask and
width map `ckms`. -/
def cxMsk : ℕ → Pixel → Prop :=
  msubcubeMaskOf cxPV (fun _ => ckms / 2) (fun _ => 10) (fun _ => 1) 0
    (fun _ => True) (fun _ => ckms) cxSub ckms

/-- The speed of light constant is positive. -/
lemma ckms_pos : (0 : ℝ) < ckms := by norm_num [ckms]

/-- The concrete subcube keeps both channels, at velocities 0 and `ckms`. -/
lemma cx_channels :
    cxSub.channels = [((0 : ℝ), fun _ => (1 : ℝ)), (ckms, fun _ => (1 : ℝ))] := by
  have h0 : opticalVelocity 2 2 = 0 := by norm_num [opticalVelocity]
  have h1 : opticalVelocity 2 1 = ckms := by norm_num [opticalVelocity]
  simp only [cxSub, line_subcube, line_vcube, with_spectral_unit, spectral_slab,
    cxCube, cxPV, mapMin, mapMax, listMin, listMax, List.map_cons, List.map_nil,
    List.foldl_nil, h0, h1]
  norm_num [List.filter, ckms]

/-- Velocity of channel 0 of the concrete subcube. -/
lemma cx_spec0 : specAt cxSub 0 = 0 := by
  rw [specAt, cx_channels]
  rfl

/-- Velocity of channel 1 of the concrete subcube. -/
lemma cx_spec1 : specAt cxSub 1 = ckms := by
  rw [specAt, cx_channels]
  rfl

/-- Brightness of channel 0 of the concrete subcube at the only pixel. -/
lemma cx_data0 : dataAt cxSub 0 (0, 0) = 1 := by
  rw [dataAt, cx_channels]
  rfl

/-- Brightness of channel 1 of the concrete subcube at the only pixel. -/
lemma cx_data1 : dataAt cxSub 1 (0, 0) = 1 := by
  rw [dataAt, cx_channels]
  rfl

/-- Channel 0 of the concrete subcube lies in the velocity window. -/
lemma cx_vel0 : velocity_window_mask cxPV cxSub ckms 0 (0, 0) := by
  unfold velocity_window_mask
  rw [cx_spec0]
  norm_num [cxPV, ckms, abs_lt]

/-- Channel 1 of the concrete subcube lies in the velocity window. -/
lemma cx_vel1 : velocity_window_mask cxPV cxSub ckms 1 (0, 0) := by
  unfold velocity_window_mask
  rw [cx_spec1]
  norm_num [cxPV, ckms, abs_lt]

/-- Channel 0 of the concrete subcube passes the signal mask. -/
lemma cx_sig0 : signal_maskOf 0 (fun _ => 1) cxSub 0 (0, 0) := by
  unfold signal_maskOf
  rw [cx_data0]
  norm_num

/-- Channel 1 of the concrete subcube passes the signal mask. -/
lemma cx_sig1 : signal_maskOf 0 (fun _ => 1) cxSub 1 (0, 0) := by
  unfold signal_maskOf
  rw [cx_data1]
  norm_num

/-- Channel 0 of the concrete subcube passes the width mask. -/
lemma cx_width0 : width_mask_cube (fun _ => ckms / 2) (fun _ => ckms)
    (fun _ => 10) (fun _ => 1) cxSub 0 (0, 0) := by
  unfold width_mask_cube gaussMaskCube thresholdOf peak_sn
  rw [cx_spec0, gt_iff_lt, Real.exp_lt_exp]
  norm_num [ckms]

/-- Channel 1 of the concrete subcube passes the width mask. -/
lemma cx_width1 : width_mask_cube (fun _ => ckms / 2) (fun _ => ckms)
    (fun _ => 10) (fun _ => 1) cxSub 1 (0, 0) := by
  unfold width_mask_cube gaussMaskCube thresholdOf peak_sn
  rw [cx_spec1, gt_iff_lt, Real.exp_lt_exp]
  norm_num [ckms]

/-- The combined mask keeps the voxel at channel 0 of the concrete cube. -/
lemma cx_mask0 : cxMsk 0 (0, 0) :=
  show ((True ∧ (velocity_window_mask cxPV cxSub ckms 0 (0, 0) ∧ True)) ∧
      signal_maskOf 0 (fun _ => 1) cxSub 0 (0, 0)) ∧
      width_mask_cube (fun _ => ckms / 2) (fun _ => ckms) (fun _ => 10)
        (fun _ => 1) cxSub 0 (0, 0) from
    ⟨⟨⟨trivial, cx_vel0, trivial⟩, cx_sig0⟩, cx_width0⟩

/-- The combined mask keeps the voxel at channel 1 of the concrete cube. -/
lemma cx_mask1 : cxMsk 1 (0, 0) :=
  show ((True ∧ (velocity_window_mask cxPV cxSub ckms 1 (0, 0) ∧ True)) ∧
      signal_maskOf 0 (fun _ => 1) cxSub 1 (0, 0)) ∧
      width_mask_cube (fun _ => ckms / 2) (fun _ => ckms) (fun _ => 10)
        (fun _ => 1) cxSub 1 (0, 0) from
    ⟨⟨⟨trivial, cx_vel1, trivial⟩, cx_sig1⟩, cx_width1⟩

/-- Masked sums over the concrete cube reduce to the two kept voxels. -/
lemma cx_maskedSum (f : ℝ → ℝ → ℝ) :
    maskedSum cxSub cxMsk (0, 0) f = f 0 1 + f ckms 1 := by
  unfold maskedSum
  rw [cx_channels]
  show (if cxMsk 0 (0, 0) then f 0 1 else 0) +
      ((if cxMsk 1 (0, 0) then f ckms 1 else 0) + 0) = f 0 1 + f ckms 1
  rw [if_pos cx_mask0, if_pos cx_mask1, add_zero]

/-- Moment 1 of the concrete masked cube at the only pixel. -/
lemma cx_m1 : moment1M cxSub cxMsk (0, 0) = ckms / 2 := by
  unfold moment1M
  rw [cx_maskedSum (fun v I => I * v), cx_maskedSum (fun _ I => I)]
  norm_num

/-- Moment 2 of the concrete masked cube at the only pixel. -/
lemma cx_m2 : momentOf cxSub cxMsk 2 (0, 0) = ckms ^ 2 / 4 := by
  show maskedSum cxSub cxMsk (0, 0)
      (fun v I => I * (v - moment1M cxSub cxMsk (0, 0)) ^ 2) /
      maskedSum cxSub cxMsk (0, 0) (fun _ I => I) = ckms ^ 2 / 4
  rw [cx_maskedSum (fun v I => I * (v - moment1M cxSub cxMsk (0, 0)) ^ 2),
    cx_maskedSum (fun _ I => I), cx_m1]
  ring

/-- Counterexample to claim C3 as stated: on a concrete input, the value
written for moment 2 differs from the moment-2 reduction of the masked
subcube, because the source rescales it by `2 * sqrt(log 2) * sqrt(.)`
before writing. -/
theorem written_moment2_ne_moment2_counterexample :
    ((lineWrites cxCube cxPV (fun _ => ckms / 2) (fun _ => 10) (fun _ => 1) 0
        "t" (fun _ => True) (fun _ => ckms) "x" 2 ckms).getD 4
        { path := "", data := fun _ => 0 }).data (0, 0) ≠
      momentOf cxSub cxMsk 2 (0, 0) := by
  have hw : ((lineWrites cxCube cxPV (fun _ => ckms / 2) (fun _ => 10)
      (fun _ => 1) 0 "t" (fun _ => True) (fun _ => ckms) "x" 2 ckms).getD 4
      { path := "", data := fun _ => 0 }).data (0, 0) =
      2 * Real.sqrt (Real.log 2) * Real.sqrt (momentOf cxSub cxMsk 2 (0, 0)) := rfl
  rw [hw, cx_m2]
  have h1 : Real.sqrt (ckms ^ 2 / 4) = ckms / 2 := by
    rw [show ckms ^ 2 / 4 = (ckms / 2) ^ 2 by ring]
    exact Real.sqrt_sq (by norm_num [ckms])
  rw [h1]
  have hlog : Real.log 2 < 1 := by
    rw [Real.log_lt_iff_lt_exp (by norm_num)]
    have h2 := Real.exp_one_gt_d9
    nlinarith
  have hsq : Real.sqrt (Real.log 2) < 1 := by
    have h3 : Real.sqrt (Real.log 2) < Real.sqrt 1 :=
      Real.sqrt_lt_sqrt (Real.log_nonneg (by norm_num)) hlog
    rwa [Real.sqrt_one] at h3
  have heq : 2 * Real.sqrt (Real.log 2) * (ckms / 2) =
      Real.sqrt (Real.log 2) * ckms := by ring
  rw [heq]
  have h4 : Real.sqrt (Real.log 2) * ckms < 1 * ckms :=
    mul_lt_mul_of_pos_right hsq ckms_pos
  have h5 : ckms < ckms ^ 2 / 4 := by norm_num [ckms]
  rw [one_mul] at h4
  exact ne_of_lt (by linarith)

/-- Amended claim C3: the third map written for each line is not the raw
moment-2 reduction but `2 * sqrt(log 2)` times the square root of the
moment-2 reduction of the masked subcube (a width conversion). -/
theorem written_moment2_is_width_scaled (cube : Cube)
    (peak_velocity centroid_map max_map noisemap : Pixel → ℝ)
    (signal_mask_limit : ℝ) (target : String) (spatial_mask : Pixel → Prop)
    (width_map : Pixel → ℝ) (line_name : String) (line_freq line_width : ℝ)
    (p : Pixel) :
    ((lineWrites cube peak_velocity centroid_map max_map noisemap
        signal_mask_limit target spatial_mask width_map line_name line_freq
        line_width).getD 4 { path := "", data := fun _ => 0 }).data p =
      2 * Real.sqrt (Real.log 2) *
        Real.sqrt (momentOf (line_subcube cube peak_velocity line_freq line_width)
          (msubcubeMaskOf peak_velocity centroid_map max_map noisemap
            signal_mask_limit spatial_mask width_map
            (line_subcube cube peak_velocity line_freq line_width) line_width)
          2 p) := rfl

/-- Witness for claim C10: at the concrete cube, with unit width map and unit
peak signal-to-noise ratio, the equivalence holds with both hypotheses
satisfied. -/
theorem width_mask_iff_sn_sigma_window_witness :
    ((0 : ℝ) < 1 ∧ 0 < peak_sn (fun _ => 1) (fun _ => 1) ((0, 0) : Pixel)) ∧
      (width_mask_cube (fun _ => 2) (fun _ => 1) (fun _ => 1) (fun _ => 1)
          cxCube 0 (0, 0) ↔
        |specAt cxCube 0 - 2| < peak_sn (fun _ => 1) (fun _ => 1) (0, 0) * 1) :=
  ⟨⟨by norm_num, by norm_num [peak_sn]⟩,
    width_mask_iff_sn_sigma_window (fun _ => 2) (fun _ => 1) (fun _ => 1)
      (fun _ => 1) cxCube 0 (0, 0) (by norm_num) (by norm_num [peak_sn])⟩

end CubeLineMoment

end
